import Mathlib

/-!
# Verification of the bitcoins-rs BIP32 derivation slice

Shallow embedding of `bip32/src/derived.rs` (master-node construction,
derived-key wrappers, ancestor verification, child derivation bookkeeping)
and `src/utils.rs` (`Hash256Writer`).

Bytes are modelled as `Nat` (each `< 256` where it matters), byte strings as
`List Nat`.  The curve backend, HMAC-SHA512 and the helper modules
(`xkeys.rs`, `path.rs`, `model.rs`), which are outside the provided source
slice, are modelled from the specification: each such definition carries a
doc comment starting with `Modelled from the spec:`.
-/

namespace Bitcoins

/-- Modelled from the spec (§7, error kinds of the missing `Bip32Error` enum in
`lib.rs`): `SeedTooShort` (seed under 128 bits), `InvalidKey` (zero or
out-of-range scalar, or identity point), `HardenedDerivationUnsupported`
(hardened step from a public-only key).  `MissingBackend` models the failure
of an arithmetic operation when the optional backend handle (§2, Key Wrapper
Layer) is absent. -/
inductive Bip32Error where
  | SeedTooShort
  | InvalidKey
  | HardenedDerivationUnsupported
  | MissingBackend
deriving DecidableEq, Repr

/-- Modelled from the spec: the address/serialization hint enum (`Hint` in the
missing `model.rs`); the source slice shows the `SegWit` variant used as the
default (`hint.unwrap_or(Hint::SegWit)` in `derived.rs`). -/
inductive Hint where
  | Legacy
  | Compatibility
  | SegWit
deriving DecidableEq, Repr

/-- Big-endian interpretation of a byte string as a natural number. -/
def bytesToNat (l : List Nat) : Nat :=
  l.foldl (fun acc b => acc * 256 + b) 0

/-- Lexicographic `>` on equal-length byte arrays, as Rust's derived `Ord`
compares `[u8; 32]` values (`key > CURVE_ORDER` in `derived.rs`). -/
def bytesGt : List Nat → List Nat → Bool
  | a :: as, b :: bs =>
    if b < a then true
    else if a < b then false
    else bytesGt as bs
  | _, _ => false

/-- Big-endian serialization of a natural number into `w` bytes. -/
def natToBytes (w : Nat) (v : Nat) : List Nat :=
  match w with
  | 0 => []
  | n + 1 => natToBytes n (v / 256) ++ [v % 256]

/-- The secp256k1 group order as a big-endian 32-byte constant.  Modelled from
the spec: the `CURVE_ORDER: [u8; 32]` constant of the missing `lib.rs`,
forced by the "fixed 256-bit prime-order group" (§2). -/
def CURVE_ORDER : List Nat :=
  [0xff, 0xff, 0xff, 0xff, 0xff, 0xff, 0xff, 0xff,
   0xff, 0xff, 0xff, 0xff, 0xff, 0xff, 0xff, 0xfe,
   0xba, 0xae, 0xdc, 0xe6, 0xaf, 0x48, 0xa0, 0x3b,
   0xbf, 0xd2, 0x5e, 0x8c, 0xd0, 0x36, 0x41, 0x41]

/-- The secp256k1 group order as a natural number. -/
def curveOrderN : Nat :=
  0xfffffffffffffffffffffffffffffffebaaedce6af48a03bbfd25e8cd0364141

/-- Modelled from the spec (§6): the BIP32-standard HMAC key constant `SEED`
of the missing `xkeys.rs`, the ASCII bytes of `"Bitcoin seed"`. -/
def SEED : List Nat :=
  [0x42, 0x69, 0x74, 0x63, 0x6f, 0x69, 0x6e, 0x20, 0x73, 0x65, 0x65, 0x64]

/-- An HMAC-SHA512 implementation, abstracted: the spec (§6) consumes it as an
external keyed hash `key → data → 64 bytes`. -/
def Hmac : Type := List Nat → List Nat → List Nat

/-- Modelled from the spec (§4.1, §6): `hmac_and_split` of the missing
`xkeys.rs` splits the 64-byte HMAC output first-32/last-32. -/
def hmacAndSplit (h : Hmac) (key data : List Nat) : List Nat × List Nat :=
  let out := h key data
  (out.take 32, out.drop 32)

/-- Modelled from the spec (§6, Curve Backend Capability): the operations of
the missing `Secp256k1Backend` trait.  Scalars and points are represented by
natural numbers (a point is identified by its discrete logarithm, which is
faithful for a cyclic prime-order group). -/
structure Backend where
  /-- `scalar_from_bytes` / `from_privkey_array`: build a validated scalar. -/
  from_privkey_array : List Nat → Except Bip32Error Nat
  /-- `scalar_to_public_point`: scalar to public point. -/
  derive_pubkey : Nat → Nat
  /-- `tweak_add_scalar`: scalar addition mod the group order. -/
  tweak_add_scalar : Nat → Nat → Except Bip32Error Nat
  /-- `tweak_add_point`: `tweak·G + point`. -/
  tweak_add_point : Nat → Nat → Except Bip32Error Nat
  /-- `serialize` of a scalar (32 bytes). -/
  serialize_scalar : Nat → List Nat
  /-- `serialize` of a point (compressed form). -/
  serialize_point : Nat → List Nat
  /-- The fingerprint function (§6): deterministic hash of a serialized public
  key truncated to 4 bytes. -/
  fingerprint : Nat → List Nat

/-- Modelled from the spec (§3, §6, §7): the reference backend.  A scalar must
be nonzero and strictly below the group order, backend-validated on
construction with `InvalidKey` for an out-of-range scalar; `tweak_add_point`
fails with `InvalidKey` on the identity point. -/
def specBackend : Backend where
  from_privkey_array bs :=
    let v := bytesToNat bs
    if v = 0 ∨ curveOrderN ≤ v then .error .InvalidKey else .ok v
  derive_pubkey k := k % curveOrderN
  tweak_add_scalar k t :=
    let s := (k + t) % curveOrderN
    if s = 0 then .error .InvalidKey else .ok s
  tweak_add_point p t :=
    let q := (p + t) % curveOrderN
    if q = 0 then .error .InvalidKey else .ok q
  serialize_scalar k := natToBytes 32 k
  serialize_point p := 0x02 :: natToBytes 32 p
  fingerprint p := (natToBytes 32 p).take 4

/-- Modelled from the spec (§3): Extended Key Info — depth, parent
fingerprint, child index, chain code, hint (`XKeyInfo` of the missing
`xkeys.rs`). -/
structure XKeyInfo where
  depth : Nat
  parent : List Nat
  index : Nat
  chain_code : List Nat
  hint : Hint

/-- Modelled from the spec (§2, Key Wrapper Layer): a raw private key paired
with an optional backend handle (`GenericPrivkey` of the missing
`keys.rs`). -/
structure GenericPrivkey where
  key : Nat
  backend : Option Backend

/-- Modelled from the spec (§2, Key Wrapper Layer): a raw public key paired
with an optional backend handle (`GenericPubkey` of the missing
`keys.rs`). -/
structure GenericPubkey where
  key : Nat
  backend : Option Backend

/-- Modelled from the spec (§3): an extended private key pairs the info block
with the wrapped private key (`GenericXPriv` of the missing `xkeys.rs`). -/
structure GenericXPriv where
  info : XKeyInfo
  privkey : GenericPrivkey

/-- Modelled from the spec (§3): an extended public key (`GenericXPub` of the
missing `xkeys.rs`). -/
structure GenericXPub where
  info : XKeyInfo
  pubkey : GenericPubkey

/-- Modelled from the spec (§2, Key Wrapper Layer): derive the corresponding
public key, a single-step projection through the backend handle
(`GenericPrivkey::derive_verifying_key` of the missing `keys.rs`). -/
def GenericPrivkey.derive_verifying_key (p : GenericPrivkey) :
    Except Bip32Error GenericPubkey :=
  match p.backend with
  | some B => .ok { key := B.derive_pubkey p.key, backend := some B }
  | none => .error .MissingBackend

/-- Modelled from the spec (§4.4): the raw public key derived from a wrapped
private key (`derive_pubkey` of the missing `HasPrivkey` trait). -/
def GenericPrivkey.derive_pubkey (p : GenericPrivkey) : Except Bip32Error Nat :=
  match p.backend with
  | some B => .ok (B.derive_pubkey p.key)
  | none => .error .MissingBackend

/-- Modelled from the spec (§4.4): projection of an extended private key to
the extended public key with the same info block
(`GenericXPriv::derive_verifying_key` of the missing `xkeys.rs`). -/
def GenericXPriv.derive_verifying_key (x : GenericXPriv) :
    Except Bip32Error GenericXPub := do
  let pk ← x.privkey.derive_verifying_key
  .ok { info := x.info, pubkey := pk }

/-- The 4-byte big-endian serialization of a u32 child index, used as the HMAC
input suffix. -/
def indexBytes (index : Nat) : List Nat := natToBytes 4 index

/-- The hardened flag: the high bit of the u32 index (§3, Derivation Path). -/
def isHardened (index : Nat) : Bool := 2 ^ 31 ≤ index

/-- Modelled from the spec (§4.2): one private→private child-derivation step
(`derive_private_child` of the missing `xkeys.rs`).  Hardened indices hash
`0x00 ‖ scalar_bytes ‖ index_bytes`, normal indices hash
`point_bytes ‖ index_bytes`, keyed by the parent chain code; the tweak is
validated by the backend and added to the parent scalar; depth increments,
the parent fingerprint is taken from the parent public key, and the consumed
index is recorded verbatim. -/
def GenericXPriv.derive_private_child (h : Hmac) (x : GenericXPriv)
    (index : Nat) : Except Bip32Error GenericXPriv := do
  let B ← match x.privkey.backend with
    | some B => Except.ok B
    | none => Except.error Bip32Error.MissingBackend
  let data :=
    if isHardened index then
      0x00 :: B.serialize_scalar x.privkey.key ++ indexBytes index
    else
      B.serialize_point (B.derive_pubkey x.privkey.key) ++ indexBytes index
  let (tweakBytes, cc) := hmacAndSplit h x.info.chain_code data
  let tweak ← B.from_privkey_array tweakBytes
  let k ← B.tweak_add_scalar x.privkey.key tweak
  .ok { info := { depth := x.info.depth + 1,
                  parent := B.fingerprint (B.derive_pubkey x.privkey.key),
                  index := index,
                  chain_code := cc,
                  hint := x.info.hint },
        privkey := { key := k, backend := some B } }

/-- Modelled from the spec (§4.3): one public→public child-derivation step
(`derive_public_child` of the missing `xkeys.rs`).  Fails with the dedicated
hardened-derivation-unsupported error if the high bit of the index is set;
otherwise hashes `point_bytes ‖ index_bytes` keyed by the chain code and adds
`tweak·G` to the parent point. -/
def GenericXPub.derive_public_child (h : Hmac) (x : GenericXPub)
    (index : Nat) : Except Bip32Error GenericXPub := do
  if isHardened index then
    Except.error Bip32Error.HardenedDerivationUnsupported
  else
  let B ← match x.pubkey.backend with
    | some B => Except.ok B
    | none => Except.error Bip32Error.MissingBackend
  let data := B.serialize_point x.pubkey.key ++ indexBytes index
  let (tweakBytes, cc) := hmacAndSplit h x.info.chain_code data
  let tweak ← B.from_privkey_array tweakBytes
  let pt ← B.tweak_add_point x.pubkey.key tweak
  .ok { info := { depth := x.info.depth + 1,
                  parent := B.fingerprint x.pubkey.key,
                  index := index,
                  chain_code := cc,
                  hint := x.info.hint },
        pubkey := { key := pt, backend := some B } }

/-- Modelled from the spec (§4.5): extending a derivation path by one index
(`extended` of the missing `path.rs`). -/
def extended (path : List Nat) (index : Nat) : List Nat := path ++ [index]

/-- Modelled from the spec (§4.5): `path_to_descendant(ancestor, other)`
returns the suffix of `other`'s path that extends `ancestor`'s path, or no
relation if `ancestor`'s path is not a prefix of `other`'s (index-wise,
hardened flags included). -/
def pathToDescendant (ancestor other : List Nat) : Option (List Nat) :=
  if ancestor.isPrefixOf other then some (other.drop ancestor.length)
  else none

/-- A Privkey coupled with its (purported) derivation
(`GenericDerivedPrivkey`, `derived.rs`). -/
structure GenericDerivedPrivkey where
  privkey : GenericPrivkey
  derivation : List Nat

/-- A Pubkey coupled with its (purported) derivation
(`GenericDerivedPubkey`, `derived.rs`). -/
structure GenericDerivedPubkey where
  pubkey : GenericPubkey
  derivation : List Nat

/-- An XPriv coupled with its (purported) derivation
(`GenericDerivedXPriv`, `derived.rs`). -/
structure GenericDerivedXPriv where
  xpriv : GenericXPriv
  derivation : List Nat

/-- An XPub coupled with its (purported) derivation
(`GenericDerivedXPub`, `derived.rs`). -/
structure GenericDerivedXPub where
  xpub : GenericXPub
  derivation : List Nat

/-- The view `derived.rs` takes of the generic argument
`D: DerivedKey + HasPubkey` of the ancestor checks: a derivation path and a
raw public key. -/
structure DerivedKeyView where
  pubkey : Nat
  derivation : List Nat

/-- `GenericDerivedPrivkey::derive_verifying_key` (`derived.rs` lines 27–33):
project the inner privkey and clone the derivation. -/
def GenericDerivedPrivkey.derive_verifying_key (d : GenericDerivedPrivkey) :
    Except Bip32Error GenericDerivedPubkey := do
  let pk ← d.privkey.derive_verifying_key
  .ok { pubkey := pk, derivation := d.derivation }

/-- `GenericDerivedXPriv::custom_master_node` (`derived.rs` lines 58–86):
master-node construction from a seed with a custom HMAC key. -/
def custom_master_node (h : Hmac) (hmac_key data : List Nat)
    (hint : Option Hint) (B : Backend) : Except Bip32Error GenericXPriv :=
  if data.length < 16 then .error .SeedTooShort
  else
    let parent := List.replicate 4 0
    let (key, chain_code) := hmacAndSplit h hmac_key data
    if key = List.replicate 32 0 ∨ bytesGt key CURVE_ORDER then
      .error .InvalidKey
    else do
      let privkey ← B.from_privkey_array key
      .ok { info := { depth := 0,
                      parent := parent,
                      index := 0,
                      chain_code := chain_code,
                      hint := hint.getD Hint.SegWit },
            privkey := { key := privkey, backend := some B } }

/-- `GenericDerivedXPriv::root_from_seed` (`derived.rs` lines 94–100):
master-node construction with the BIP32-standard HMAC key. -/
def root_from_seed (h : Hmac) (data : List Nat) (hint : Option Hint)
    (B : Backend) : Except Bip32Error GenericXPriv :=
  custom_master_node h SEED data hint B

/-- `GenericDerivedXPriv::to_derived_xpub` (`derived.rs` lines 103–108). -/
def GenericDerivedXPriv.to_derived_xpub (d : GenericDerivedXPriv) :
    Except Bip32Error GenericDerivedXPub := do
  let xp ← d.xpriv.derive_verifying_key
  .ok { xpub := xp, derivation := d.derivation }

/-- `SigningKey::derive_verifying_key` for `GenericDerivedXPriv`
(`derived.rs` lines 130–132): delegates to `to_derived_xpub`. -/
def GenericDerivedXPriv.derive_verifying_key (d : GenericDerivedXPriv) :
    Except Bip32Error GenericDerivedXPub :=
  d.to_derived_xpub

/-- The inherited `derive_pubkey` of `GenericDerivedXPriv` (the
`inherit_has_privkey!` delegation in `derived.rs`, method modelled from the
spec §4.4). -/
def GenericDerivedXPriv.derive_pubkey (d : GenericDerivedXPriv) :
    Except Bip32Error Nat :=
  d.xpriv.privkey.derive_pubkey

/-- The inherited raw public key of a `GenericDerivedXPub` (the
`inherit_has_pubkey!` delegation in `derived.rs`). -/
def GenericDerivedXPub.pubkeyRaw (d : GenericDerivedXPub) : Nat :=
  d.xpub.pubkey.key

/-- `DerivePrivateChild for GenericDerivedXPriv` (`derived.rs` lines
135–142): derive the inner child and extend the derivation path. -/
def GenericDerivedXPriv.derive_private_child (h : Hmac)
    (d : GenericDerivedXPriv) (index : Nat) :
    Except Bip32Error GenericDerivedXPriv := do
  let x ← d.xpriv.derive_private_child h index
  .ok { xpriv := x, derivation := extended d.derivation index }

/-- `DerivePublicChild for GenericDerivedXPub` (`derived.rs` lines 179–186). -/
def GenericDerivedXPub.derive_public_child (h : Hmac)
    (d : GenericDerivedXPub) (index : Nat) :
    Except Bip32Error GenericDerivedXPub := do
  let x ← d.xpub.derive_public_child h index
  .ok { xpub := x, derivation := extended d.derivation index }

/-- Modelled from the spec (§4.5): applying a path is the left-to-right
composition of single-index private derivation steps; an empty path is the
identity (`derive_private_path` of the missing `model.rs`). -/
def GenericDerivedXPriv.derive_private_path (h : Hmac)
    (d : GenericDerivedXPriv) : List Nat →
    Except Bip32Error GenericDerivedXPriv
  | [] => .ok d
  | i :: rest => do
    let c ← d.derive_private_child h i
    c.derive_private_path h rest

/-- Modelled from the spec (§4.5): path application on the public side
(`derive_public_path` of the missing `model.rs`). -/
def GenericDerivedXPub.derive_public_path (h : Hmac)
    (d : GenericDerivedXPub) : List Nat →
    Except Bip32Error GenericDerivedXPub
  | [] => .ok d
  | i :: rest => do
    let c ← d.derive_public_child h i
    c.derive_public_path h rest

/-- `GenericDerivedXPriv::is_private_ancestor_of` (`derived.rs` lines
111–122): derive along the relative path and compare public keys; no path
relation yields `Ok(false)`. -/
def GenericDerivedXPriv.is_private_ancestor_of (h : Hmac)
    (s : GenericDerivedXPriv) (other : DerivedKeyView) :
    Except Bip32Error Bool :=
  match pathToDescendant s.derivation other.derivation with
  | some path => do
    let descendant ← s.derive_private_path h path
    let descendantPkBytes ← descendant.derive_pubkey
    .ok (descendantPkBytes = other.pubkey)
  | none => .ok false

/-- `GenericDerivedXPub::is_public_ancestor_of` (`derived.rs` lines
162–172). -/
def GenericDerivedXPub.is_public_ancestor_of (h : Hmac)
    (s : GenericDerivedXPub) (other : DerivedKeyView) :
    Except Bip32Error Bool :=
  match pathToDescendant s.derivation other.derivation with
  | some path => do
    let descendant ← s.derive_public_path h path
    .ok (descendant.pubkeyRaw = other.pubkey)
  | none => .ok false

/-- The `Hash256Writer` of `src/utils.rs`.  The incremental `Sha256` hasher
of the external `sha2` crate is modelled by the byte string it has absorbed
so far; the hash function itself is consumed as an external parameter at
`finish`. -/
structure Hash256Writer where
  internal : List Nat

/-- The `Default` instance of `Hash256Writer`: a fresh hasher with nothing
absorbed. -/
def Hash256Writer.default : Hash256Writer := ⟨[]⟩

/-- `Hash256Writer::finish` (`utils.rs` lines 15–21): hash the absorbed
input, hash the result again, and return that digest. -/
def Hash256Writer.finish (sha : List Nat → List Nat) (w : Hash256Writer) :
    List Nat :=
  let first := sha w.internal
  let second := sha first
  second

/-- `Write::write` for `Hash256Writer` (`utils.rs` lines 25–27): feed the
buffer to the inner hasher; the `sha2` hasher absorbs the whole buffer and
reports its length. -/
def Hash256Writer.write (w : Hash256Writer) (buf : List Nat) :
    Hash256Writer × Nat :=
  ({ internal := w.internal ++ buf }, buf.length)

/-- `Write::flush` for `Hash256Writer` (`utils.rs` lines 29–31): always
`Ok(())`, touching nothing. -/
def Hash256Writer.flush (w : Hash256Writer) :
    (Except String Unit) × Hash256Writer :=
  (.ok (), w)

/-- A sequence of `write` calls, threading the writer state. -/
def Hash256Writer.writeAll (w : Hash256Writer) (bufs : List (List Nat)) :
    Hash256Writer :=
  bufs.foldl (fun acc b => (acc.write b).1) w

/-! ## Byte-string arithmetic

Rust compares `[u8; 32]` values lexicographically; the bridge lemmas below
relate that order to the big-endian numeric value, so the claims' numeric
phrasing can be settled against the source's array comparison. -/

theorem bytesToNat_foldl (l : List Nat) (acc : Nat) :
    l.foldl (fun a b => a * 256 + b) acc =
      acc * 256 ^ l.length + l.foldl (fun a b => a * 256 + b) 0 := by
  induction l generalizing acc with
  | nil => simp
  | cons x xs ih =>
    simp only [List.foldl_cons, List.length_cons]
    rw [ih (acc * 256 + x), ih (0 * 256 + x)]
    ring

theorem bytesToNat_cons (x : Nat) (xs : List Nat) :
    bytesToNat (x :: xs) = x * 256 ^ xs.length + bytesToNat xs := by
  simp only [bytesToNat, List.foldl_cons]
  simpa using bytesToNat_foldl xs x

theorem bytesToNat_lt (l : List Nat) (hl : ∀ b ∈ l, b < 256) :
    bytesToNat l < 256 ^ l.length := by
  induction l with
  | nil => simp [bytesToNat]
  | cons x xs ih =>
    have hx : x < 256 := hl x (by simp)
    have hxs : bytesToNat xs < 256 ^ xs.length :=
      ih (fun b hb => hl b (by simp [hb]))
    rw [bytesToNat_cons]
    calc x * 256 ^ xs.length + bytesToNat xs
        < x * 256 ^ xs.length + 256 ^ xs.length := Nat.add_lt_add_left hxs _
      _ = (x + 1) * 256 ^ xs.length := by ring
      _ ≤ 256 * 256 ^ xs.length := Nat.mul_le_mul_right _ hx
      _ = 256 ^ (x :: xs).length := by rw [List.length_cons]; ring

theorem bytesToNat_eq_zero (l : List Nat) :
    bytesToNat l = 0 ↔ ∀ b ∈ l, b = 0 := by
  induction l with
  | nil => simp [bytesToNat]
  | cons x xs ih =>
    rw [bytesToNat_cons]
    constructor
    · intro h b hb
      have hx : x * 256 ^ xs.length = 0 ∧ bytesToNat xs = 0 :=
        Nat.add_eq_zero.mp h
      have h256 : 256 ^ xs.length ≠ 0 := (Nat.pos_pow_of_pos _ (by norm_num)).ne'
      rcases List.mem_cons.mp hb with rfl | hb'
      · rcases Nat.mul_eq_zero.mp hx.1 with h0 | h0
        · exact h0
        · exact absurd h0 h256
      · exact (ih.mp hx.2) b hb'
    · intro h
      have hx : x = 0 := h x (by simp)
      have hxs : bytesToNat xs = 0 := ih.mpr (fun b hb => h b (by simp [hb]))
      simp [hx, hxs]

theorem headDominates {x y X Y n : Nat} (hxy : y < x) (hY : Y < 256 ^ n) :
    y * 256 ^ n + Y < x * 256 ^ n + X := by
  calc y * 256 ^ n + Y
      < y * 256 ^ n + 256 ^ n := Nat.add_lt_add_left hY _
    _ = (y + 1) * 256 ^ n := by ring
    _ ≤ x * 256 ^ n := Nat.mul_le_mul_right _ hxy
    _ ≤ x * 256 ^ n + X := Nat.le_add_right _ _

theorem bytesGt_iff : ∀ (a b : List Nat), a.length = b.length →
    (∀ x ∈ a, x < 256) → (∀ x ∈ b, x < 256) →
    (bytesGt a b = true ↔ bytesToNat b < bytesToNat a) := by
  intro a
  induction a with
  | nil =>
    intro b hlen _ _
    have : b = [] := List.length_eq_zero.mp hlen.symm
    subst this
    simp [bytesGt, bytesToNat]
  | cons x xs ih =>
    intro b hlen ha hb
    match b with
    | [] => simp at hlen
    | y :: ys =>
      have hlen' : xs.length = ys.length := by
        simpa using hlen
      have hx : x < 256 := ha x (by simp)
      have hy : y < 256 := hb y (by simp)
      have hxs : ∀ v ∈ xs, v < 256 := fun v hv => ha v (by simp [hv])
      have hys : ∀ v ∈ ys, v < 256 := fun v hv => hb v (by simp [hv])
      have hXlt : bytesToNat xs < 256 ^ xs.length := bytesToNat_lt xs hxs
      have hYlt : bytesToNat ys < 256 ^ ys.length := bytesToNat_lt ys hys
      rw [bytesToNat_cons, bytesToNat_cons, ← hlen']
      simp only [bytesGt]
      by_cases hyx : y < x
      · simp only [hyx, if_true, true_iff]
        exact headDominates hyx (hlen' ▸ hYlt)
      · by_cases hxy : x < y
        · simp only [hyx, hxy, if_false, if_true, Bool.false_eq_true, false_iff,
            not_lt]
          exact Nat.le_of_lt (headDominates hxy hXlt)
        · have hxyeq : x = y := by omega
          subst hxyeq
          simp only [hyx, hxy, if_false]
          rw [ih ys hlen' hxs hys]
          exact (Nat.add_lt_add_iff_left).symm

theorem curveOrder_bytes : bytesToNat CURVE_ORDER = curveOrderN := by
  norm_num [CURVE_ORDER, curveOrderN, bytesToNat, List.foldl]

theorem curveOrder_length : CURVE_ORDER.length = 32 := by decide

theorem curveOrder_bytes_lt : ∀ x ∈ CURVE_ORDER, x < 256 := by decide

/-- A concrete stand-in instantiation of the external keyed-hash parameter,
used for evaluating the derivation pipeline on explicit inputs: 64 bytes
whose first 32 encode the scalar 1 and whose last 32 are all `0x02`. -/
def hmacConst : Hmac := fun _ _ =>
  List.replicate 31 0 ++ (1 :: List.replicate 32 2)

/-- The reference backend's scalar construction only ever reports
`InvalidKey`, never `SeedTooShort`. -/
theorem specBackend_no_seedTooShort (bs : List Nat) :
    specBackend.from_privkey_array bs ≠ .error .SeedTooShort := by
  simp only [specBackend]
  split
  · simp
  · simp

/-- The master node produced by `custom_master_node` from `hmacConst` on the
16-zero-byte seed. -/
def masterWitnessKey : GenericXPriv :=
  ⟨⟨0, List.replicate 4 0, 0, List.replicate 32 2, Hint.SegWit⟩,
    ⟨1, some specBackend⟩⟩

/-! ## Claim theorems -/

/-- C1: for every hmac key and every seed of length at least 16 bytes,
`custom_master_node` (and hence `root_from_seed`, which is
`custom_master_node` at the standard HMAC key) returns the `InvalidKey`
error exactly when the first 32 bytes of the 64-byte HMAC output are all
zero or represent an integer ≥ the secp256k1 group order; a candidate
numerically equal to the group order is rejected (by the backend's scalar
validation). -/
theorem custom_master_node_invalidKey_iff (h : Hmac)
    (hmac_key data : List Nat) (hint : Option Hint)
    (hlen : 16 ≤ data.length)
    (hout : (h hmac_key data).length = 64)
    (hbytes : ∀ b ∈ h hmac_key data, b < 256) :
    (custom_master_node h hmac_key data hint specBackend
        = .error .InvalidKey ↔
      ((h hmac_key data).take 32 = List.replicate 32 0 ∨
        curveOrderN ≤ bytesToNat ((h hmac_key data).take 32)))
    ∧ root_from_seed h data hint specBackend
        = custom_master_node h SEED data hint specBackend := by
  refine ⟨?_, rfl⟩
  have hlen' : ¬ data.length < 16 := by omega
  set key := (h hmac_key data).take 32 with hkeydef
  have hkeylen : key.length = 32 := by
    rw [hkeydef, List.length_take, hout]
    omega
  have hkeybytes : ∀ b ∈ key, b < 256 := fun b hb =>
    hbytes b ((List.take_subset _ _) hb)
  have hgtiff : bytesGt key CURVE_ORDER = true ↔
      curveOrderN < bytesToNat key := by
    rw [bytesGt_iff key CURVE_ORDER (by rw [hkeylen, curveOrder_length])
      hkeybytes curveOrder_bytes_lt, curveOrder_bytes]
  unfold custom_master_node
  rw [if_neg hlen']
  simp only [hmacAndSplit, ← hkeydef]
  by_cases hc : key = List.replicate 32 0 ∨ bytesGt key CURVE_ORDER = true
  · rw [if_pos hc]
    simp only [true_iff]
    rcases hc with hz | hgt
    · exact Or.inl hz
    · exact Or.inr (Nat.le_of_lt (hgtiff.mp hgt))
  · rw [if_neg hc]
    push_neg at hc
    obtain ⟨hz, hgt⟩ := hc
    have hvle : bytesToNat key ≤ curveOrderN := by
      by_contra hlt
      exact hgt (hgtiff.mpr (by omega))
    have hvnz : bytesToNat key ≠ 0 := by
      intro h0
      exact hz (List.eq_replicate_iff.mpr
        ⟨hkeylen, (bytesToNat_eq_zero key).mp h0⟩)
    by_cases hvn : bytesToNat key = curveOrderN
    · have hfp : specBackend.from_privkey_array key = .error .InvalidKey := by
        simp [specBackend, hvn]
      simp only [bind, Except.bind, hfp, true_iff]
      exact Or.inr (by omega)
    · have hvlt : bytesToNat key < curveOrderN := by omega
      have hfp : specBackend.from_privkey_array key = .ok (bytesToNat key) := by
        simp only [specBackend]
        rw [if_neg]
        push_neg
        exact ⟨hvnz, by omega⟩
      simp only [bind, Except.bind, hfp]
      constructor
      · intro hcontra
        exact absurd hcontra (by simp)
      · intro hcontra
        rcases hcontra with h0 | hge
        · exact absurd h0 hz
        · omega

/-- Witness for C1: the iff evaluated at a concrete hmac function, the
standard HMAC key and the 16-zero-byte seed. -/
theorem custom_master_node_invalidKey_iff_witness :
    (custom_master_node hmacConst SEED (List.replicate 16 0) none specBackend
        = .error .InvalidKey ↔
      ((hmacConst SEED (List.replicate 16 0)).take 32 = List.replicate 32 0 ∨
        curveOrderN ≤
          bytesToNat ((hmacConst SEED (List.replicate 16 0)).take 32)))
    ∧ root_from_seed hmacConst (List.replicate 16 0) none specBackend
        = custom_master_node hmacConst SEED (List.replicate 16 0) none
            specBackend :=
  custom_master_node_invalidKey_iff hmacConst SEED (List.replicate 16 0) none
    (by decide) (by decide) (by decide)

/-- C2: for every hmac key, hint and backend whose scalar construction never
reports `SeedTooShort`, `custom_master_node` returns the `SeedTooShort`
error if and only if the seed is shorter than 16 bytes; in particular a
16-byte seed is never rejected with `SeedTooShort`. -/
theorem custom_master_node_seedTooShort_iff (h : Hmac)
    (hmac_key data : List Nat) (hint : Option Hint) (B : Backend)
    (hB : ∀ bs, B.from_privkey_array bs ≠ .error .SeedTooShort) :
    custom_master_node h hmac_key data hint B = .error .SeedTooShort ↔
      data.length < 16 := by
  by_cases hlen : data.length < 16
  · simp [custom_master_node, hlen]
  · simp only [hlen, iff_false]
    intro hres
    unfold custom_master_node at hres
    rw [if_neg hlen] at hres
    simp only [hmacAndSplit] at hres
    split at hres
    · exact absurd hres (by simp)
    · rcases hfp : B.from_privkey_array ((h hmac_key data).take 32) with e | pk
      · rw [hfp] at hres
        simp only [bind, Except.bind] at hres
        obtain rfl : e = Bip32Error.SeedTooShort := by injection hres
        exact hB _ hfp
      · rw [hfp] at hres
        simp only [bind, Except.bind] at hres
        exact absurd hres (by simp)

/-- Witness for C2: a seed of exactly 16 bytes is not rejected with
`SeedTooShort`. -/
theorem custom_master_node_seedTooShort_iff_witness :
    custom_master_node hmacConst SEED (List.replicate 16 0) none specBackend
        = .error .SeedTooShort ↔
      (List.replicate 16 (0 : Nat)).length < 16 :=
  custom_master_node_seedTooShort_iff hmacConst SEED (List.replicate 16 0)
    none specBackend specBackend_no_seedTooShort

/-- C3: whenever `custom_master_node` succeeds on a seed of at least 16
bytes (candidate scalar passes validation), the returned extended private
key has depth 0, a four-zero-byte parent fingerprint, child index 0, the
last 32 bytes of the 64-byte HMAC output as its chain code, and the
caller-supplied hint (or the `SegWit` default when none is given). -/
theorem custom_master_node_success_shape (h : Hmac)
    (hmac_key data : List Nat) (hint : Option Hint) (B : Backend)
    (x : GenericXPriv)
    (hout : (h hmac_key data).length = 64)
    (hres : custom_master_node h hmac_key data hint B = .ok x) :
    x.info.depth = 0 ∧ x.info.parent = List.replicate 4 0 ∧
      x.info.index = 0 ∧ x.info.chain_code = (h hmac_key data).drop 32 ∧
      x.info.chain_code.length = 32 ∧
      x.info.hint = hint.getD Hint.SegWit := by
  unfold custom_master_node at hres
  split at hres
  · exact absurd hres (by simp)
  · simp only [hmacAndSplit] at hres
    split at hres
    · exact absurd hres (by simp)
    · rcases hfp : B.from_privkey_array ((h hmac_key data).take 32) with e | pk
      all_goals rw [hfp] at hres
      all_goals simp only [bind, Except.bind] at hres
      · exact absurd hres (by simp)
      · cases hres
        refine ⟨rfl, rfl, rfl, rfl, ?_, rfl⟩
        simp [List.length_drop, hout]

/-- Witness for C3: the 16-zero-byte seed with the standard HMAC key and a
concrete hmac function yields depth 0, index 0, an all-zero parent
fingerprint and the chain code from the last 32 bytes of the hash output. -/
theorem custom_master_node_success_shape_witness :
    masterWitnessKey.info.depth = 0 ∧
      masterWitnessKey.info.parent = List.replicate 4 0 ∧
      masterWitnessKey.info.index = 0 ∧
      masterWitnessKey.info.chain_code
          = (hmacConst SEED (List.replicate 16 0)).drop 32 ∧
      masterWitnessKey.info.chain_code.length = 32 ∧
      masterWitnessKey.info.hint = (none : Option Hint).getD Hint.SegWit :=
  custom_master_node_success_shape hmacConst SEED (List.replicate 16 0) none
    specBackend masterWitnessKey (by decide) rfl

/-- C4: when `other`'s derivation path does not have the ancestor's path as
a prefix (indices compared exactly, hardened flags included), both
`is_private_ancestor_of` and `is_public_ancestor_of` return `Ok(false)`
rather than an error. -/
theorem ancestor_no_relation_false (h : Hmac) (sp : GenericDerivedXPriv)
    (su : GenericDerivedXPub) (other : DerivedKeyView)
    (hnp : ¬ sp.derivation <+: other.derivation)
    (hnu : ¬ su.derivation <+: other.derivation) :
    sp.is_private_ancestor_of h other = .ok false ∧
      su.is_public_ancestor_of h other = .ok false := by
  have hp : pathToDescendant sp.derivation other.derivation = none := by
    unfold pathToDescendant
    rw [if_neg]
    intro hb
    exact hnp (List.isPrefixOf_iff_prefix.mp hb)
  have hu : pathToDescendant su.derivation other.derivation = none := by
    unfold pathToDescendant
    rw [if_neg]
    intro hb
    exact hnu (List.isPrefixOf_iff_prefix.mp hb)
  constructor
  · unfold GenericDerivedXPriv.is_private_ancestor_of
    rw [hp]
  · unfold GenericDerivedXPub.is_public_ancestor_of
    rw [hu]

/-- A dummy extended public key used in concrete instantiations. -/
def xpubWitnessKey : GenericXPub :=
  ⟨⟨0, List.replicate 4 0, 0, List.replicate 32 2, Hint.SegWit⟩,
    ⟨1, some specBackend⟩⟩

/-- Witness for C4: an `other` key with path `[0, 1]` checked against an
ancestor with path `[0, 2]` yields `Ok(false)` through both checks. -/
theorem ancestor_no_relation_false_witness :
    (GenericDerivedXPriv.mk masterWitnessKey
        [0, 2]).is_private_ancestor_of hmacConst ⟨0, [0, 1]⟩ = .ok false ∧
      (GenericDerivedXPub.mk xpubWitnessKey
        [0, 2]).is_public_ancestor_of hmacConst ⟨0, [0, 1]⟩ = .ok false :=
  ancestor_no_relation_false hmacConst ⟨masterWitnessKey, [0, 2]⟩
    ⟨xpubWitnessKey, [0, 2]⟩ ⟨0, [0, 1]⟩ (by decide) (by decide)

/-- C5: when `other`'s path extends the ancestor's path and the derivation
along the relative path (and, on the private side, the final public-key
projection) succeeds, the ancestor check returns `Ok(true)` exactly when the
derived descendant's public key equals `other`'s public key. -/
theorem ancestor_derive_and_compare (h : Hmac) (sp : GenericDerivedXPriv)
    (su : GenericDerivedXPub) (o u : DerivedKeyView) (p q : List Nat)
    (d : GenericDerivedXPriv) (dpk : Nat) (e : GenericDerivedXPub) :
    (pathToDescendant sp.derivation o.derivation = some p →
      sp.derive_private_path h p = .ok d →
      d.derive_pubkey = .ok dpk →
      (sp.is_private_ancestor_of h o = .ok true ↔ dpk = o.pubkey))
    ∧ (pathToDescendant su.derivation u.derivation = some q →
      su.derive_public_path h q = .ok e →
      (su.is_public_ancestor_of h u = .ok true ↔ e.pubkeyRaw = u.pubkey)) := by
  constructor
  · intro hpath hder hpk
    unfold GenericDerivedXPriv.is_private_ancestor_of
    rw [hpath]
    simp only [bind, Except.bind, hder, hpk, Except.ok.injEq,
      decide_eq_true_eq]
  · intro hpath hder
    unfold GenericDerivedXPub.is_public_ancestor_of
    rw [hpath]
    simp only [bind, Except.bind, hder, Except.ok.injEq, decide_eq_true_eq]

/-- The first private child of the `masterWitnessKey` root under
`hmacConst`, at index 0, with its derivation path. -/
def childWitnessPriv : GenericDerivedXPriv :=
  ⟨⟨⟨1, List.replicate 4 0, 0, List.replicate 32 2, Hint.SegWit⟩,
    ⟨2, some specBackend⟩⟩, [0]⟩

/-- The first public child of the `xpubWitnessKey` root under `hmacConst`,
at index 0, with its derivation path. -/
def childWitnessPub : GenericDerivedXPub :=
  ⟨⟨⟨1, List.replicate 4 0, 0, List.replicate 32 2, Hint.SegWit⟩,
    ⟨2, some specBackend⟩⟩, [0]⟩

/-- Witness for C5: both checks evaluated at a root with empty path, a
descendant at relative path `[0]`, and matching public key 2. -/
theorem ancestor_derive_and_compare_witness :
    ((GenericDerivedXPriv.mk masterWitnessKey
        []).is_private_ancestor_of hmacConst ⟨2, [0]⟩ = .ok true ↔ 2 = 2)
    ∧ ((GenericDerivedXPub.mk xpubWitnessKey
        []).is_public_ancestor_of hmacConst ⟨2, [0]⟩ = .ok true ↔
        childWitnessPub.pubkeyRaw = 2) :=
  ⟨(ancestor_derive_and_compare hmacConst ⟨masterWitnessKey, []⟩
      ⟨xpubWitnessKey, []⟩ ⟨2, [0]⟩ ⟨2, [0]⟩ [0] [0] childWitnessPriv 2
      childWitnessPub).1 rfl rfl rfl,
    (ancestor_derive_and_compare hmacConst ⟨masterWitnessKey, []⟩
      ⟨xpubWitnessKey, []⟩ ⟨2, [0]⟩ ⟨2, [0]⟩ [0] [0] childWitnessPriv 2
      childWitnessPub).2 rfl rfl⟩

/-- A hardened index makes the single public child step fail with the
dedicated hardened-derivation-unsupported error. -/
theorem derive_public_child_hardened (h : Hmac) (x : GenericXPub) (i : Nat)
    (hi : isHardened i = true) :
    x.derive_public_child h i = .error .HardenedDerivationUnsupported := by
  unfold GenericXPub.derive_public_child
  simp [hi]

/-- The derived-key public child step propagates the hardened failure. -/
theorem derived_public_child_hardened (h : Hmac) (d : GenericDerivedXPub)
    (i : Nat) (hi : isHardened i = true) :
    d.derive_public_child h i = .error .HardenedDerivationUnsupported := by
  unfold GenericDerivedXPub.derive_public_child
  rw [derive_public_child_hardened h d.xpub i hi]
  rfl

/-- Public path application fails (with some propagated error) on any path
containing a hardened index. -/
theorem derive_public_path_hardened_err (h : Hmac) :
    ∀ (p : List Nat) (d : GenericDerivedXPub),
      (∃ i ∈ p, isHardened i = true) →
      ∃ e, d.derive_public_path h p = .error e := by
  intro p
  induction p with
  | nil =>
    intro d hex
    obtain ⟨i, hi, _⟩ := hex
    cases hi
  | cons j rest ih =>
    intro d hex
    obtain ⟨i, hi, hh⟩ := hex
    unfold GenericDerivedXPub.derive_public_path
    rcases List.mem_cons.mp hi with rfl | hrest
    · refine ⟨.HardenedDerivationUnsupported, ?_⟩
      rw [derived_public_child_hardened h d i hh]
      rfl
    · rcases hc : d.derive_public_child h j with e | c
      · exact ⟨e, rfl⟩
      · obtain ⟨e, he⟩ := ih c ⟨i, hrest, hh⟩
        exact ⟨e, by simpa [bind, Except.bind] using he⟩

/-- C6: when `other`'s path extends the ancestor's path by a relative path
containing a hardened index, `is_public_ancestor_of` returns an error
propagated from the public path derivation, never `Ok(false)` (nor any other
`Ok`). -/
theorem is_public_ancestor_hardened_err (h : Hmac)
    (su : GenericDerivedXPub) (other : DerivedKeyView) (p : List Nat)
    (hpath : pathToDescendant su.derivation other.derivation = some p)
    (hhard : ∃ i ∈ p, isHardened i = true) :
    (∃ e, su.is_public_ancestor_of h other = .error e) ∧
      ∀ b, su.is_public_ancestor_of h other ≠ .ok b := by
  obtain ⟨e, he⟩ := derive_public_path_hardened_err h p su hhard
  have hmain : su.is_public_ancestor_of h other = .error e := by
    unfold GenericDerivedXPub.is_public_ancestor_of
    rw [hpath]
    simp [bind, Except.bind, he]
  exact ⟨⟨e, hmain⟩, fun b hb => by rw [hmain] at hb; cases hb⟩

/-- Witness for C6: the root with empty path against an `other` whose
relative path is the single hardened index `0x80000000`. -/
theorem is_public_ancestor_hardened_err_witness :
    (∃ e, (GenericDerivedXPub.mk xpubWitnessKey
        []).is_public_ancestor_of hmacConst ⟨0, [2 ^ 31]⟩ = .error e) ∧
      ∀ b, (GenericDerivedXPub.mk xpubWitnessKey
        []).is_public_ancestor_of hmacConst ⟨0, [2 ^ 31]⟩ ≠ .ok b :=
  is_public_ancestor_hardened_err hmacConst ⟨xpubWitnessKey, []⟩
    ⟨0, [2 ^ 31]⟩ [2 ^ 31] rfl ⟨2 ^ 31, by decide, by decide⟩

/-- C7: whenever the underlying single-step child derivation succeeds, the
derived-key wrappers return a new derived key whose path is the parent's
path with the consumed index appended (private and public variants). -/
theorem derive_child_appends_path (h : Hmac) (dp : GenericDerivedXPriv)
    (du : GenericDerivedXPub) (i j : Nat) (dp' : GenericDerivedXPriv)
    (du' : GenericDerivedXPub) :
    (dp.derive_private_child h i = .ok dp' →
      dp'.derivation = dp.derivation ++ [i] ∧ dp'.xpriv ∈
        (dp.xpriv.derive_private_child h i).toOption)
    ∧ (du.derive_public_child h j = .ok du' →
      du'.derivation = du.derivation ++ [j] ∧ du'.xpub ∈
        (du.xpub.derive_public_child h j).toOption) := by
  constructor
  · intro hres
    unfold GenericDerivedXPriv.derive_private_child at hres
    rcases hx : dp.xpriv.derive_private_child h i with e | x
    · rw [hx] at hres
      cases hres
    · rw [hx] at hres
      simp only [bind, Except.bind] at hres
      cases hres
      exact ⟨rfl, by simp [Except.toOption]⟩
  · intro hres
    unfold GenericDerivedXPub.derive_public_child at hres
    rcases hx : du.xpub.derive_public_child h j with e | x
    · rw [hx] at hres
      cases hres
    · rw [hx] at hres
      simp only [bind, Except.bind] at hres
      cases hres
      exact ⟨rfl, by simp [Except.toOption]⟩

/-- Witness for C7: both child derivations evaluated at the concrete roots
and index 0. -/
theorem derive_child_appends_path_witness :
    (childWitnessPriv.derivation = [] ++ [0] ∧ childWitnessPriv.xpriv ∈
      (masterWitnessKey.derive_private_child hmacConst 0).toOption)
    ∧ (childWitnessPub.derivation = [] ++ [0] ∧ childWitnessPub.xpub ∈
      (xpubWitnessKey.derive_public_child hmacConst 0).toOption) :=
  ⟨(derive_child_appends_path hmacConst ⟨masterWitnessKey, []⟩
      ⟨xpubWitnessKey, []⟩ 0 0 childWitnessPriv childWitnessPub).1 rfl,
    (derive_child_appends_path hmacConst ⟨masterWitnessKey, []⟩
      ⟨xpubWitnessKey, []⟩ 0 0 childWitnessPriv childWitnessPub).2 rfl⟩

/-- C8: the public-key projection of a derived private key (plain or
extended) is deterministic and idempotent: two calls on the same key that
succeed return bit-identical verifying keys, and for the extended variant
`derive_verifying_key` is exactly `to_derived_xpub`. -/
theorem derive_verifying_key_deterministic (d : GenericDerivedPrivkey)
    (x : GenericDerivedXPriv) (v₁ v₂ : GenericDerivedPubkey)
    (w₁ w₂ : GenericDerivedXPub) :
    (d.derive_verifying_key = .ok v₁ → d.derive_verifying_key = .ok v₂ →
      v₁ = v₂)
    ∧ (x.derive_verifying_key = .ok w₁ → x.derive_verifying_key = .ok w₂ →
      w₁ = w₂)
    ∧ x.derive_verifying_key = x.to_derived_xpub := by
  refine ⟨?_, ?_, rfl⟩
  · intro h1 h2
    injection h1.symm.trans h2
  · intro h1 h2
    injection h1.symm.trans h2

/-- Witness for C8: concrete keys projected twice yield equal results, and
the extended projection agrees with `to_derived_xpub`. -/
theorem derive_verifying_key_deterministic_witness :
    ((⟨⟨1, some specBackend⟩, [0]⟩ : GenericDerivedPubkey)
        = ⟨⟨1, some specBackend⟩, [0]⟩)
    ∧ ((⟨xpubWitnessKey, []⟩ : GenericDerivedXPub) = ⟨xpubWitnessKey, []⟩)
    ∧ (⟨masterWitnessKey, []⟩ : GenericDerivedXPriv).derive_verifying_key
        = (⟨masterWitnessKey, []⟩ : GenericDerivedXPriv).to_derived_xpub :=
  let t := derive_verifying_key_deterministic
    ⟨⟨1, some specBackend⟩, [0]⟩ ⟨masterWitnessKey, []⟩
    ⟨⟨1, some specBackend⟩, [0]⟩ ⟨⟨1, some specBackend⟩, [0]⟩
    ⟨xpubWitnessKey, []⟩ ⟨xpubWitnessKey, []⟩
  ⟨t.1 rfl rfl, t.2.1 rfl rfl, t.2.2⟩

/-- C9: the public-key projection carries the derivation path across
unchanged, for a plain derived private key and for an extended one. -/
theorem projection_preserves_derivation (d : GenericDerivedPrivkey)
    (x : GenericDerivedXPriv) (v : GenericDerivedPubkey)
    (w : GenericDerivedXPub) :
    (d.derive_verifying_key = .ok v → v.derivation = d.derivation)
    ∧ (x.to_derived_xpub = .ok w → w.derivation = x.derivation ∧
        w.xpub.info = x.xpriv.info) := by
  constructor
  · intro hres
    unfold GenericDerivedPrivkey.derive_verifying_key at hres
    rcases hp : d.privkey.derive_verifying_key with e | pk
    · rw [hp] at hres
      cases hres
    · rw [hp] at hres
      simp only [bind, Except.bind] at hres
      cases hres
      rfl
  · intro hres
    unfold GenericDerivedXPriv.to_derived_xpub at hres
    rcases hp : x.xpriv.derive_verifying_key with e | xp
    · rw [hp] at hres
      cases hres
    · rw [hp] at hres
      simp only [bind, Except.bind] at hres
      cases hres
      refine ⟨rfl, ?_⟩
      unfold GenericXPriv.derive_verifying_key at hp
      rcases hq : x.xpriv.privkey.derive_verifying_key with e | pk
      · rw [hq] at hp
        cases hp
      · rw [hq] at hp
        simp only [bind, Except.bind] at hp
        cases hp
        rfl

/-- Witness for C9: path preservation at concrete keys. -/
theorem projection_preserves_derivation_witness :
    ((⟨⟨1, some specBackend⟩, [0]⟩ : GenericDerivedPubkey).derivation
        = (⟨⟨1, some specBackend⟩, [0]⟩ : GenericDerivedPrivkey).derivation)
    ∧ ((⟨xpubWitnessKey, []⟩ : GenericDerivedXPub).derivation
        = (⟨masterWitnessKey, []⟩ : GenericDerivedXPriv).derivation ∧
      (⟨xpubWitnessKey, []⟩ : GenericDerivedXPub).xpub.info
        = (⟨masterWitnessKey, []⟩ : GenericDerivedXPriv).xpriv.info) :=
  let t := projection_preserves_derivation ⟨⟨1, some specBackend⟩, [0]⟩
    ⟨masterWitnessKey, []⟩ ⟨⟨1, some specBackend⟩, [0]⟩ ⟨xpubWitnessKey, []⟩
  ⟨t.1 rfl, t.2 rfl⟩

/-- Writing appends to the absorbed input of the inner hasher. -/
theorem writeAll_internal (bufs : List (List Nat)) :
    ∀ (w : Hash256Writer),
      (w.writeAll bufs).internal = w.internal ++ bufs.flatten := by
  induction bufs with
  | nil =>
    intro w
    simp [Hash256Writer.writeAll]
  | cons b rest ih =>
    intro w
    simp only [Hash256Writer.writeAll, List.foldl_cons, List.flatten_cons]
    rw [show (List.foldl (fun acc b => (acc.write b).1)
        ((w.write b).1) rest) = ((w.write b).1).writeAll rest from rfl,
      ih, Hash256Writer.write, List.append_assoc]

/-- C10: for every hash function and every sequence of written buffers,
`finish` returns the double hash of the concatenation of all written bytes;
a fresh writer yields the double hash of the empty string; each `write`
reports the full buffer length; `flush` always succeeds and leaves the
accumulated input unchanged. -/
theorem hash256Writer_double_hash (sha : List Nat → List Nat)
    (bufs : List (List Nat)) (buf : List Nat) (w : Hash256Writer) :
    (Hash256Writer.default.writeAll bufs).finish sha
        = sha (sha bufs.flatten)
    ∧ Hash256Writer.default.finish sha = sha (sha [])
    ∧ (w.write buf).2 = buf.length
    ∧ w.flush = (.ok (), w)
    ∧ ((w.flush).2).internal = w.internal := by
  refine ⟨?_, rfl, rfl, rfl, rfl⟩
  unfold Hash256Writer.finish
  rw [writeAll_internal bufs Hash256Writer.default]
  rfl

end Bitcoins
